import Mathlib

/-!
Shallow embedding of the `algorithmic_ink_studio` processing engine
(`src/processing/lienzo.py` and `src/processing/brush_engine.py`).

Pixels are 8-bit BGR samples, modelled as `Fin 256` triples (a numpy
`uint8` array can only hold values in `[0,255]`, so the type carries the
dtype invariant).  Numpy arrays whose shape matters to control flow are
modelled with explicit shape metadata (`NpShape`), because the source
compares shape tuples of different lengths in several guards.

External OpenCV routines (`cv2.resize`, `cv2.warpAffine`,
`cv2.bilateralFilter`, `cv2.cvtColor`, `math.atan2`) are not part of the
repository; they are passed in as function parameters (`CvOps`,
`CvImgOps`) so every theorem quantifies over their behaviour, and where a
property genuinely depends on them the theorem takes explicit hypotheses
(e.g. that `cv2.resize` produces the requested shape).
-/

namespace InkStudio

/-- One 8-bit sample. -/
abbrev U8 := Fin 256

/-- One BGR pixel: three `uint8` samples. -/
abbrev Pix := U8 × U8 × U8

/-- Componentwise order on pixels. -/
def pixLe (a b : Pix) : Prop := a.1 ≤ b.1 ∧ a.2.1 ≤ b.2.1 ∧ a.2.2 ≤ b.2.2

instance (a b : Pix) : Decidable (pixLe a b) := by unfold pixLe; infer_instance

/-- Componentwise minimum of two pixels (`np.minimum` on uint8 data). -/
def pixMin (a b : Pix) : Pix := (min a.1 b.1, min a.2.1 b.2.1, min a.2.2 b.2.2)

/-- Cast an integer into a `uint8` sample the way numpy stores it
(`astype(np.uint8)` wraps modulo 256 on integer data; on in-range data it
is the identity). -/
def u8 (z : ℤ) : U8 := ⟨(z % 256).toNat, by omega⟩

/-- Clip an integer to `[0, 255]` and cast (`np.clip(data, 0, 255).astype(np.uint8)`). -/
def clip255 (z : ℤ) : U8 := ⟨(min 255 (max 0 z)).toNat, by omega⟩

/-- Shape metadata of a numpy array (`.shape`), for ranks 1–3.  Guards in
the source compare shape tuples of different lengths, which is decidable
inequality between different constructors here. -/
inductive NpShape where
  | d1 : ℕ → NpShape
  | d2 : ℕ → ℕ → NpShape
  | d3 : ℕ → ℕ → ℕ → NpShape
deriving DecidableEq

/-- Number of axes of a shape (`len(a.shape)`). -/
def NpShape.ndim : NpShape → ℕ
  | .d1 _ => 1
  | .d2 _ _ => 2
  | .d3 _ _ _ => 3

/-- Total number of elements (`a.size`). -/
def NpShape.size : NpShape → ℕ
  | .d1 n => n
  | .d2 h w => h * w
  | .d3 h w c => h * w * c

/-- First two axes (`a.shape[:2]`); only used after a rank-2/3 check. -/
def NpShape.dims2 : NpShape → ℕ × ℕ
  | .d1 n => (n, 0)
  | .d2 h w => (h, w)
  | .d3 h w _ => (h, w)

/-- Whether the shape is `(h, w, 3)` for some `h`, `w`
(`len(a.shape) == 3 and a.shape[2] == 3`). -/
def NpShape.isRank3Chan3 : NpShape → Bool
  | .d3 _ _ 3 => true
  | _ => false

/-- A general numpy array handed across an interface boundary: shape
metadata, dtype flag, and integer-valued samples indexed
`(row, col, channel)`.  Out-of-range values model non-`uint8` dtypes. -/
structure NpArr where
  shape : NpShape
  isUint8 : Bool
  val : ℕ → ℕ → ℕ → ℤ

/-- An `astype(np.uint8)` cast (wraps modulo 256 on integer data). -/
def castU8 (d : NpArr) : NpArr := ⟨d.shape, true, fun i j k => d.val i j k % 256⟩

/-- A `np.clip(·, 0, 255).astype(np.uint8)` range-normalisation pass. -/
def clipCastU8 (d : NpArr) : NpArr :=
  ⟨d.shape, true, fun i j k => min 255 (max 0 (d.val i j k))⟩

/-- An `H×W×3` uint8 image buffer (the canvas or a cropped working copy). -/
structure Img where
  h : ℕ
  w : ℕ
  pix : ℕ → ℕ → Pix

/-- The empty `(0,0,3)` uint8 buffer (`np.empty((0, 0, 3), dtype=np.uint8)`). -/
def Img.empty : Img := ⟨0, 0, fun _ _ => (0, 0, 0)⟩

/-- The numpy shape of an `H×W×3` image (`a.shape` is a 3-tuple). -/
def Img.npShape (b : Img) : NpShape := NpShape.d3 b.h b.w 3

/-- View an image as a numpy array (the identity in numpy; in the model a
change of representation).  Its dtype is `uint8` and its values are the
pixel samples. -/
def Img.toPasteBuf (b : Img) : NpArr :=
  ⟨NpShape.d3 b.h b.w 3, true, fun i j k =>
    if k = 0 then ((b.pix i j).1 : ℕ)
    else if k = 1 then ((b.pix i j).2.1 : ℕ)
    else ((b.pix i j).2.2 : ℕ)⟩

/-- A 2-D float opacity mask (a brush shape). -/
structure Mask where
  h : ℕ
  w : ℕ
  val : ℕ → ℕ → ℚ

/-- A float array that may be 2-D or 3-D (the feibai noise texture and its
3-D neutral replacement); values are per-(row, col), constant across the
channel axis when 3-D (the only 3-D float texture the source builds is
`np.ones_like(local) * 0.5`). -/
structure FArr where
  shape : NpShape
  val : ℕ → ℕ → ℚ

/-- Qt `QRect`: position plus (possibly non-positive) extent.  The
default-constructed `QRect()` is `(0, 0, 0, 0)`. -/
structure QRect where
  x : ℤ
  y : ℤ
  w : ℤ
  h : ℤ
deriving DecidableEq

/-- The default-constructed empty rectangle `QRect()`. -/
def QRect.empty : QRect := ⟨0, 0, 0, 0⟩

/-- Qt `QRect.right()` (last included x index). -/
def QRect.right (r : QRect) : ℤ := r.x + r.w - 1

/-- Qt `QRect.bottom()` (last included y index). -/
def QRect.bottom (r : QRect) : ℤ := r.y + r.h - 1

/-- Python `int(q)` on a rational: truncation toward zero. -/
def pyInt (q : ℚ) : ℤ := Int.tdiv q.num q.den

/-- The loosely-typed `brush_params` dictionary: each key may be absent
(`dict.get` supplies the documented default).  `flow`, `hardness` and
`color` are carried by the UI dictionary but never read by this engine. -/
structure BrushParams where
  size : Option ℤ
  density : Option ℚ
  feibai : Option ℚ
  btype : Option String
  wetness : Option ℤ
  flow : Option ℚ
  hardness : Option ℚ
  color : Option (ℤ × ℤ × ℤ)

/-- External OpenCV / math routines used by the brush engine, passed as
parameters: `cv2.resize` of a mask to an `n×n` square, `cv2.warpAffine`
rotation of a mask, `cv2.bilateralFilter`, and `math.degrees(math.atan2 dy dx)`. -/
structure CvOps where
  resize : Mask → ℕ → Mask
  warpAffine : Mask → ℚ → Mask
  bilateral : Img → ℚ → ℚ → Img
  atan2deg : ℤ → ℤ → ℚ

/-- External OpenCV routines used by `Lienzo.set_canvas_data`:
`cv2.cvtColor(GRAY2BGR)`, `cv2.cvtColor(BGRA2BGR)` and `cv2.resize` of an
image (`none` models a raised exception, which the source catches). -/
structure CvImgOps where
  gray2bgr : NpArr → NpArr
  bgra2bgr : NpArr → NpArr
  resizeImg : NpArr → ℤ → ℤ → Option NpArr

/-- Python `np.clip(float(x), 0.0, 100.0)`. -/
def clip0100 (q : ℚ) : ℚ := min (max q 0) 100

/-- The feibai modifier of one pixel: `1.0 - (feibai / 100.0) * (1.0 - noise)`
(brush_engine.py line 512). -/
def feibaiModifier (feibai noise : ℚ) : ℚ := 1 - feibai / 100 * (1 - noise)

/-- Effective per-pixel opacity of one stamp as computed at
brush_engine.py lines 511–513: `(density/100) * mask * feibaiModifier`.
The inputs `density` and `feibai` are the already-clipped parameter
values.  Note: the `flow` parameter does not appear. -/
def effectivePixelOpacity (density feibai maskVal noiseVal : ℚ) : ℚ :=
  density / 100 * maskVal * feibaiModifier feibai noiseVal

/-- Effective stamp opacity as a function of the raw parameter dictionary
(the helper clips `density` and `feibai` before using them, lines 442–443). -/
def stampOpacityOfParams (p : BrushParams) (maskVal noiseVal : ℚ) : ℚ :=
  effectivePixelOpacity (clip0100 (p.density.getD 60)) (clip0100 (p.feibai.getD 20))
    maskVal noiseVal

/-- The opacity formula the specification states (spec §4.3 step 3):
`(density/100) · (flow/100) · mask · feibaiModifier`, clamped to `[0,1]`.
This definition follows the spec's words, for comparison with
`effectivePixelOpacity`, which follows the source. -/
def specStampOpacity (density flow feibai maskVal noiseVal : ℚ) : ℚ :=
  min 1 (max 0 (density / 100 * (flow / 100) * maskVal * feibaiModifier feibai noiseVal))

/-- One sample of the ink blend (brush_engine.py line 517):
`np.minimum(old.astype(float32), target).astype(uint8)`.  The `target`
values arising in the source are in `[0,255]`, where the float-to-uint8
cast agrees with the floor.  (This code path is statically unreachable --
see the slice-shape lemmas -- but is modelled for completeness.) -/
def blendSample (old : U8) (target : ℚ) : U8 :=
  ⟨(⌊min ((old : ℕ) : ℚ) target⌋).toNat, by
    have h1 : ⌊min ((old : ℕ) : ℚ) target⌋ ≤ ⌊((old : ℕ) : ℚ)⌋ :=
      Int.floor_le_floor (min_le_left _ _)
    rw [Int.floor_natCast] at h1
    have h2 := old.isLt
    omega⟩

/-- Ink blend of one pixel against a target shade. -/
def pixBlend (p : Pix) (target : ℚ) : Pix :=
  (blendSample p.1 target, blendSample p.2.1 target, blendSample p.2.2 target)

/-- In-place update of the rectangular sub-region `[y1, y1+sh) × [x1, x1+sw)`
of an image by the ink blend with a per-position target shade. -/
def blendRegion (b : Img) (y1 x1 sh sw : ℕ) (target : ℕ → ℕ → ℚ) : Img :=
  ⟨b.h, b.w, fun i j =>
    if y1 ≤ i ∧ i < y1 + sh ∧ x1 ≤ j ∧ j < x1 + sw then
      pixBlend (b.pix i j) (target (i - y1) (j - x1))
    else b.pix i j⟩

/-! ## The canvas (`processing/lienzo.py`) -/

/-- The canvas: fixed dimensions plus the owned `H×W×3` uint8 buffer. -/
structure Lienzo where
  width : ℤ
  height : ℤ
  data : Img

/-- The canvas shape invariant: the buffer is exactly
`height × width × 3` (`uint8` holds by the `Fin 256` sample type). -/
def Lienzo.shapeOK (L : Lienzo) : Prop :=
  L.data.h = L.height.toNat ∧ L.data.w = L.width.toNat

instance (L : Lienzo) : Decidable (L.shapeOK) := by unfold Lienzo.shapeOK; infer_instance

/-- `Lienzo.__init__`: invalid sizes fall back to 1×1, the fill colour is
clipped to `[0,255]`, and the buffer is `np.full((h, w, 3), color)`. -/
def Lienzo.init (width height : ℤ) (color : ℤ × ℤ × ℤ) : Lienzo :=
  let w := if width ≤ 0 ∨ height ≤ 0 then 1 else width
  let h := if width ≤ 0 ∨ height ≤ 0 then 1 else height
  let c : Pix := (clip255 color.1, clip255 color.2.1, clip255 color.2.2)
  ⟨w, h, ⟨h.toNat, w.toNat, fun _ _ => c⟩⟩

/-- Height of the clipped intersection of `rect` with the canvas, as the
source computes it (`min(H, y+h) - max(0, y)`). -/
def targetH (L : Lienzo) (r : QRect) : ℤ := min L.height (r.y + r.h) - max 0 r.y

/-- Width of the clipped intersection of `rect` with the canvas. -/
def targetW (L : Lienzo) (r : QRect) : ℤ := min L.width (r.x + r.w) - max 0 r.x

/-- `Lienzo.crop_area`: clip the rectangle to the canvas, return an
independent copy of the sub-region, or an empty `(0,0,3)` buffer when the
clipped region is empty.  Total: out-of-range input is absorbed by the
clipping (lienzo.py lines 108–124). -/
def Lienzo.crop_area (L : Lienzo) (r : QRect) : Img :=
  if targetW L r ≤ 0 ∨ targetH L r ≤ 0 then Img.empty
  else
    ⟨(targetH L r).toNat, (targetW L r).toNat, fun i j =>
      L.data.pix (i + (max 0 r.y).toNat) (j + (max 0 r.x).toNat)⟩

/-- `Lienzo.paste_area` (lienzo.py lines 126–156): a no-op for empty data;
a no-op (mismatch warning) unless `data.shape` equals the 3-tuple
`(target_h, target_w, 3)` of the clipped region; non-uint8 data is
clipped to `[0,255]` and cast before the write. -/
def Lienzo.paste_area (L : Lienzo) (r : QRect) (d : NpArr) : Lienzo :=
  if d.shape.size = 0 then L
  else
    let y1 := (max 0 r.y).toNat
    let x1 := (max 0 r.x).toNat
    let th := targetH L r
    let tw := targetW L r
    if th ≤ 0 ∨ tw ≤ 0 ∨ d.shape ≠ NpShape.d3 th.toNat tw.toNat 3 then L
    else
      let v : ℕ → ℕ → Pix := fun i j =>
        if d.isUint8 then (u8 (d.val i j 0), u8 (d.val i j 1), u8 (d.val i j 2))
        else (clip255 (d.val i j 0), clip255 (d.val i j 1), clip255 (d.val i j 2))
      { L with
        data := ⟨L.data.h, L.data.w, fun i j =>
          if y1 ≤ i ∧ i < y1 + th.toNat ∧ x1 ≤ j ∧ j < x1 + tw.toNat then
            v (i - y1) (j - x1)
          else L.data.pix i j⟩ }

/-- `Lienzo.fill`: set every pixel of the buffer to the clipped colour
(lienzo.py lines 158–168; the invalid-format fallback to white is a
type-level impossibility here). -/
def Lienzo.fill (L : Lienzo) (color : ℤ × ℤ × ℤ) : Lienzo :=
  { L with
    data := ⟨L.data.h, L.data.w, fun _ _ =>
      (clip255 color.1, clip255 color.2.1, clip255 color.2.2)⟩ }

/-- Materialise a `(H, W, 3)` uint8 numpy array as the canvas buffer. -/
def imgOfArr (hN wN : ℕ) (d : NpArr) : Img :=
  ⟨hN, wN, fun i j => (u8 (d.val i j 0), u8 (d.val i j 1), u8 (d.val i j 2))⟩

/-- `Lienzo.set_canvas_data` (lienzo.py lines 30–103): normalise arbitrary
incoming imagery to `H×W×3` uint8 BGR, resample if the size differs, and
replace the buffer only after a final shape-and-dtype check; every failure
path returns with the canvas untouched. -/
def Lienzo.set_canvas_data (ops : CvImgOps) (L : Lienzo) (d0 : NpArr) : Lienzo :=
  if d0.shape.size = 0 then L
  else if ¬(d0.shape.ndim = 2 ∨ d0.shape.ndim = 3) then L
  else
    let tH := L.height.toNat
    let tW := L.width.toNat
    let iHW := d0.shape.dims2
    let conv : Option NpArr :=
      match d0.shape with
      | .d2 _ _ => some (ops.gray2bgr (if d0.isUint8 then d0 else castU8 d0))
      | .d3 _ _ 1 => some (ops.gray2bgr (if d0.isUint8 then d0 else castU8 d0))
      | .d3 _ _ 3 => some (if d0.isUint8 then d0 else castU8 d0)
      | .d3 _ _ 4 => some (ops.bgra2bgr (if d0.isUint8 then d0 else castU8 d0))
      | _ => none
    match conv with
    | none => L
    | some d1 =>
      if ¬(d1.shape.isRank3Chan3 = true) then L
      else
        let d2 := if d1.isUint8 then d1 else clipCastU8 d1
        if d2.shape.dims2 = (tH, tW) then
          if d2.shape = NpShape.d3 tH tW 3 ∧ d2.isUint8 = true then
            { L with data := imgOfArr tH tW d2 }
          else L
        else
          if L.width ≤ 0 ∨ L.height ≤ 0 ∨ (iHW.1 : ℤ) ≤ 0 ∨ (iHW.2 : ℤ) ≤ 0 then L
          else
            match ops.resizeImg d2 L.width L.height with
            | none => L
            | some d3 =>
              let d4 : Option NpArr :=
                if d3.shape = NpShape.d3 tH tW 3 ∧ d3.isUint8 = true then some d3
                else if d3.shape.ndim = 3 ∧ d3.shape.isRank3Chan3 = true then
                  some (clipCastU8 d3)
                else none
              match d4 with
              | none => L
              | some d5 =>
                if d5.shape = NpShape.d3 tH tW 3 ∧ d5.isUint8 = true then
                  { L with data := imgOfArr tH tW d5 }
                else L

/-! ## The brush engine (`processing/brush_engine.py`)

Only the second definition of `apply_basic_brush_stroke_segment`
(lines 520–641) is live: in Python the later `def` of the same name
replaces the earlier one (lines 161–385), so the embedding follows the
second definition and the helper `_apply_ink_to_local_area` it calls. -/

/-- `get_scaled_rotated_brush_shape` (brush_engine.py lines 87–153).
`resolve` is the composite lookup `_brush_shapes.get(t, _brush_shapes.get('round'))`
(after `load_brush_shapes` the `'round'` entry is never `None`, so an
unregistered name falls back to the default mask).  The `.error ()`
result models the `UnboundLocalError` the source raises when
`current_size == scale_target_size`: on that path only
`rotated_shape_opacity` is assigned (line 132), yet both following uses
read `resized_shape_opacity` (lines 139 and 151), a variable that was
never bound. -/
def get_scaled_rotated_brush_shape (cv : CvOps) (resolve : String → Option Mask)
    (brush_type : String) (target_size : ℤ) (angle_degrees : ℚ) : Except Unit Mask :=
  match resolve brush_type with
  | none =>
    .ok ⟨(max 1 target_size).toNat, (max 1 target_size).toNat, fun _ _ => 1 / 2⟩
  | some base =>
    if base.h * base.w = 0 then
      .ok ⟨(max 1 target_size).toNat, (max 1 target_size).toNat, fun _ _ => 1 / 2⟩
    else
      let n := (max 1 target_size).toNat
      if base.h ≠ n then
        let resized := cv.resize base n
        if angle_degrees ≠ 0 ∧ 1 < resized.h ∧ 1 < resized.w then
          .ok (cv.warpAffine resized angle_degrees)
        else .ok resized
      else .error ()

/-- Shape of the slice `a[y1:y2, x1:x2]` of an array of shape `s`
(slices here are always within bounds). -/
def sliceShape (s : NpShape) (sh sw : ℕ) : NpShape :=
  match s with
  | .d1 _ => .d1 sh
  | .d2 _ _ => .d2 sh sw
  | .d3 _ _ c => .d3 sh sw c

/-- One iteration of the stamp loop of `_apply_ink_to_local_area`
(brush_engine.py lines 461–517), acting on the working buffer `b`.
An `.error b` result models an exception escaping the iteration (the only
raising call is `get_scaled_rotated_brush_shape`), carrying the buffer
state at that moment.  The final blend is guarded by the slice-shape
check of line 506, which compares the 3-D canvas slice with the 2-D
brush-mask slice. -/
def applyInkPointStep (cv : CvOps) (resolve : String → Option Mask)
    (brush_size brush_radius : ℤ) (density feibai : ℚ) (btype : String)
    (angle : ℚ) (noiseShape : NpShape) (noiseVal : ℕ → ℕ → ℚ) (aw ah : ℕ)
    (p1x p1y dx dy : ℤ) (num : ℕ) (b : Img) (i : ℕ) : Except Img Img :=
  let t : ℚ := (i : ℚ) / (num : ℚ)
  let px : ℤ := pyInt ((p1x : ℚ) + t * (dx : ℚ))
  let py : ℤ := pyInt ((p1y : ℚ) + t * (dy : ℚ))
  match get_scaled_rotated_brush_shape cv resolve btype brush_size angle with
  | .error _ => .error b
  | .ok mask =>
    if mask.h * mask.w = 0 ∨ ¬(mask.h = brush_size.toNat ∧ mask.w = brush_size.toNat) then
      .ok b
    else
      let bx := px - brush_radius
      let bY := py - brush_radius
      let sx1 := max 0 bx
      let sy1 := max 0 bY
      let sx2 := min (aw : ℤ) (bx + brush_size)
      let sy2 := min (ah : ℤ) (bY + brush_size)
      if sx2 ≤ sx1 ∨ sy2 ≤ sy1 then .ok b
      else
        let mx1 := (sx1 - bx).toNat
        let my1 := (sy1 - bY).toNat
        let sh := (sy2 - sy1).toNat
        let sw := (sx2 - sx1).toNat
        if NpShape.d3 sh sw 3 ≠ NpShape.d2 sh sw ∨
            NpShape.d3 sh sw 3 ≠ sliceShape noiseShape sh sw then
          .ok b
        else
          .ok (blendRegion b sy1.toNat sx1.toNat sh sw (fun i' j' =>
            255 * (1 - effectivePixelOpacity density feibai
              (mask.val (my1 + i') (mx1 + j'))
              (noiseVal (sy1.toNat + i') (sx1.toNat + j')))))

/-- `_apply_ink_to_local_area` (brush_engine.py lines 421–517): clip
parameters, replace a wrong-shaped noise texture by a neutral 3-D one
(here the incoming 2-D texture never matches the 3-D uint8 buffer, line
436), then stamp along the interpolated segment points.  Returns `.ok`
with the final buffer, or `.error` with the buffer state when an
exception escapes (the caller catches it). -/
def applyInkToLocalArea (cv : CvOps) (resolve : String → Option Mask)
    (localArea : Img) (p1l p2l : ℤ × ℤ) (params : BrushParams) (noise : FArr) :
    Except Img Img :=
  if localArea.h * localArea.w * 3 = 0 then .ok localArea
  else if localArea.w = 0 ∨ localArea.h = 0 then .ok localArea
  else
    let noiseShape : NpShape :=
      if noise.shape ≠ NpShape.d3 localArea.h localArea.w 3 then
        NpShape.d3 localArea.h localArea.w 3
      else noise.shape
    let noiseVal : ℕ → ℕ → ℚ :=
      if noise.shape ≠ NpShape.d3 localArea.h localArea.w 3 then fun _ _ => 1 / 2
      else noise.val
    let brush_size := max 1 (params.size.getD 15)
    let density := clip0100 (params.density.getD 60)
    let feibai := clip0100 (params.feibai.getD 20)
    let btype := params.btype.getD "round"
    let brush_radius := Int.fdiv brush_size 2
    let dx := p2l.1 - p1l.1
    let dy := p2l.2 - p1l.2
    let num := max (max dx.natAbs dy.natAbs) 1
    let angle : ℚ := if dx = 0 ∧ dy = 0 then 0 else cv.atan2deg dy dx
    (List.range (num + 1)).foldlM
      (applyInkPointStep cv resolve brush_size brush_radius density feibai btype angle
        noiseShape noiseVal localArea.w localArea.h p1l.1 p1l.2 dx dy num)
      localArea

/-- The clipped working rectangle of a stroke segment
(brush_engine.py lines 546–581): the segment's bounding box expanded by
the brush radius, clamped to the canvas as inclusive indices and
converted back to an `(x, y, w, h)` rectangle. -/
def segProcessRect (L : Lienzo) (p1 p2 : ℤ × ℤ) (brush_radius : ℤ) : QRect :=
  let px1 := max 0 (min p1.1 p2.1 - brush_radius)
  let py1 := max 0 (min p1.2 p2.2 - brush_radius)
  let px2 := min (L.width - 1) (max p1.1 p2.1 + brush_radius)
  let py2 := min (L.height - 1) (max p1.2 p2.2 + brush_radius)
  ⟨px1, py1, px2 - px1 + 1, py2 - py1 + 1⟩

/-- `apply_basic_brush_stroke_segment` (the live second definition,
brush_engine.py lines 520–641): crop the working rectangle, generate a
2-D noise field over it, run the ink helper, and paste back only if the
modified buffer's shape — the 3-tuple `(h, w, 3)` — equals the 2-tuple
`(rect.height(), rect.width())` (line 630).  When the helper raises, the
`except` branch (lines 619–624) pastes the cropped buffer back unchanged
and returns an empty rectangle.  `noiseVal` stands for the values drawn
by `np.random.rand`. -/
def apply_basic_brush_stroke_segment (cv : CvOps) (resolve : String → Option Mask)
    (noiseVal : ℕ → ℕ → ℚ) (L : Lienzo) (p1 p2 : ℤ × ℤ) (params : BrushParams) :
    QRect × Lienzo :=
  if L.width ≤ 0 ∨ L.height ≤ 0 then (QRect.empty, L)
  else
    let brush_size := max 1 (params.size.getD 15)
    let brush_radius := Int.fdiv brush_size 2
    let rect := segProcessRect L p1 p2 brush_radius
    if rect.w ≤ 0 ∨ rect.h ≤ 0 then (QRect.empty, L)
    else
      let localArea := L.crop_area rect
      if localArea.h * localArea.w * 3 = 0 then (QRect.empty, L)
      else
        let noise : FArr := ⟨NpShape.d2 localArea.h localArea.w, noiseVal⟩
        let p1l := (p1.1 - rect.x, p1.2 - rect.y)
        let p2l := (p2.1 - rect.x, p2.2 - rect.y)
        match applyInkToLocalArea cv resolve localArea p1l p2l params noise with
        | .error b => (QRect.empty, L.paste_area rect b.toPasteBuf)
        | .ok b =>
          if NpShape.d3 b.h b.w 3 = NpShape.d2 rect.h.toNat rect.w.toNat then
            (rect, L.paste_area rect b.toPasteBuf)
          else (QRect.empty, L)

/-- `apply_localized_blur` (brush_engine.py lines 649–779): guard on
wetness and rectangle validity; note the source unpacks
`lienzo.get_size()` — which returns `(width, height)` — into
`(canvas_height, canvas_width)`, swapping the two (line 676), so the
expansion is clipped with the axes exchanged.  The blurred crop is
blended by componentwise minimum, and pasted back only if its 3-tuple
shape equals the 2-tuple `(h, w)` (line 768). -/
def apply_localized_blur (cv : CvOps) (L : Lienzo) (r : QRect)
    (wetness : ℤ) (brush_size : ℤ) : QRect × Lienzo :=
  if (r.w = 0 ∧ r.h = 0) ∨ wetness ≤ 0 ∨ r.w ≤ 0 ∨ r.h ≤ 0 then (QRect.empty, L)
  else
    let canvas_height := L.width
    let canvas_width := L.height
    if canvas_height ≤ 0 ∨ canvas_width ≤ 0 then (QRect.empty, L)
    else
      let sigmaSpace : ℚ := max (1 / 2) ((wetness : ℚ) / 100 * 20)
      let radius : ℤ := max 5 (max (pyInt (sigmaSpace * 5 / 2)) (Int.fdiv brush_size 2))
      let x1 := max 0 (r.x - radius)
      let y1 := max 0 (r.y - radius)
      let x2 := min canvas_width (r.right + radius)
      let y2 := min canvas_height (r.bottom + radius)
      let w := max 0 (x2 - x1)
      let h := max 0 (y2 - y1)
      if w ≤ 0 ∨ h ≤ 0 then (QRect.empty, L)
      else
        let prect : QRect := ⟨x1, y1, w, h⟩
        let processingArea := L.crop_area prect
        if processingArea.h * processingArea.w * 3 = 0 then (QRect.empty, L)
        else
          let sigmaColor : ℚ := max 1 ((wetness : ℚ) / 100 * 150)
          let blurred := cv.bilateral processingArea sigmaColor sigmaSpace
          let blended : Img := ⟨processingArea.h, processingArea.w, fun i j =>
            pixMin (processingArea.pix i j) (blurred.pix i j)⟩
          if NpShape.d3 blended.h blended.w 3 = NpShape.d2 h.toNat w.toNat then
            (prect, L.paste_area prect blended.toPasteBuf)
          else (QRect.empty, L)

/-- `finalize_stroke` (brush_engine.py lines 784–817): delegate to
`apply_localized_blur` with the accumulated inked region and the
`wetness` / `size` parameters (defaults 70 and 15). -/
def finalize_stroke (cv : CvOps) (L : Lienzo) (strokeInkedRegion : QRect)
    (params : BrushParams) : QRect × Lienzo :=
  apply_localized_blur cv L strokeInkedRegion (params.wetness.getD 70)
    (params.size.getD 15)

/-! ## Concrete interpretations used for evaluation witnesses -/

/-- Project the buffer out of a helper result, whether the helper returned
normally or an exception escaped. -/
def inkResultImg : Except Img Img → Img
  | .ok b => b
  | .error b => b

/-- Executable stand-ins for the external OpenCV routines: nearest-index
resize to the requested square, identity rotation, identity blur, zero
angle.  They satisfy cv2's shape contracts and let concrete scenarios
evaluate. -/
def cvTriv : CvOps :=
  ⟨fun m n => ⟨n, n, fun i j => m.val i j⟩, fun m _ => m, fun b _ _ => b, fun _ _ => 0⟩

/-- A stand-in for the synthetic fallback `'round'` mask
(`load_brush_shapes` synthesises a 128×128 opacity map when the asset is
missing; only its side length matters to the claims checked on it). -/
def synthRoundMask : Mask := ⟨128, 128, fun _ _ => 1 / 2⟩

/-- The shape lookup after `load_brush_shapes` in an environment without
the resources folder: every name resolves to the synthetic round mask. -/
def resolveSynth : String → Option Mask := fun _ => some synthRoundMask

/-- A constant noise field (one possible draw of `np.random.rand`). -/
def noiseHalf : ℕ → ℕ → ℚ := fun _ _ => 1 / 2

/-- Identity stand-ins for the external conversions of `set_canvas_data`. -/
def cvImgTriv : CvImgOps := ⟨fun d => d, fun d => d, fun d _ _ => some d⟩

/-- The white pixel. -/
def whitePix : Pix := (255, 255, 255)

/-- The 100×100 all-white canvas of the tap scenario. -/
def scenarioCanvas : Lienzo := Lienzo.init 100 100 (255, 255, 255)

/-- The tap-scenario brush dictionary: size 10, density 100, flow 100,
hardness 50, black ink, round brush (feibai 0; `flow`, `hardness` and
`color` are present in the dictionary but unread by the engine). -/
def scenarioParams : BrushParams :=
  ⟨some 10, some 100, some 0, some "round", none, some 100, some 50, some (0, 0, 0)⟩

/-- A dictionary with density 100 and flow 50, separating the code's
opacity from the spec's flow-bearing formula. -/
def cexParams : BrushParams :=
  ⟨some 10, some 100, some 0, some "round", none, some 50, none, none⟩

/-- A dictionary carrying `wetness = 0` for the finalize no-op scenario. -/
def paramsW0 : BrushParams := ⟨some 10, none, none, none, some 0, none, none, none⟩

/-- A 7×5 canvas for the crop-clipping scenario. -/
def c8Canvas : Lienzo := Lienzo.init 7 5 (1, 2, 3)

/-- A rectangle extending past the canvas bounds on all four sides. -/
def c8Rect : QRect := ⟨-3, -4, 20, 30⟩

/-- A 4×3 canvas for the paste scenarios. -/
def c9Canvas : Lienzo := Lienzo.init 4 3 (0, 0, 0)

/-- A 2×2 rectangle inside `c9Canvas`. -/
def c9Rect : QRect := ⟨0, 0, 2, 2⟩

/-- A 2-D buffer: its shape never matches the required `(h, w, 3)`. -/
def c9ArrWrong : NpArr := ⟨NpShape.d2 2 2, true, fun _ _ _ => 0⟩

/-- A correctly-shaped float buffer with out-of-range values. -/
def c9ArrFloat : NpArr := ⟨NpShape.d3 2 2 3, false, fun _ _ _ => 999⟩

/-- A `(2, 3, 3)` uint8 input matching the 3×2 canvas of the shape
invariant witness. -/
def c10Arr : NpArr := ⟨NpShape.d3 2 3 3, true, fun _ _ _ => 7⟩

end InkStudio

namespace InkStudio

/-! ## Supporting lemmas -/

/-- Extensionality for image buffers. -/
theorem imgExt {a b : Img} (hh : a.h = b.h) (hw : a.w = b.w)
    (hp : a.pix = b.pix) : a = b := by
  cases a; cases b; simp_all

/-- Extensionality for canvases. -/
theorem lienzoExt {a b : Lienzo} (hw : a.width = b.width)
    (hh : a.height = b.height) (hd : a.data = b.data) : a = b := by
  cases a; cases b; simp_all

/-- Reflexivity of the componentwise pixel order. -/
theorem pixLe_refl (p : Pix) : pixLe p p := ⟨le_refl _, le_refl _, le_refl _⟩

/-- Round-tripping a uint8 sample through the integer view is the identity. -/
theorem u8_coe (x : U8) : u8 ((x : ℕ) : ℤ) = x := by
  apply Fin.ext
  simp only [u8]
  have := x.isLt
  omega

/-- Cropping a rectangle and immediately pasting the result back at the
same rectangle restores the canvas exactly (lienzo.py `crop_area` /
`paste_area`). -/
theorem crop_paste_id (L : Lienzo) (r : QRect) :
    L.paste_area r ((L.crop_area r).toPasteBuf) = L := by
  by_cases hc : targetW L r ≤ 0 ∨ targetH L r ≤ 0
  · unfold Lienzo.crop_area
    rw [if_pos hc]
    unfold Lienzo.paste_area Img.toPasteBuf Img.empty
    simp [NpShape.size]
  · push_neg at hc
    obtain ⟨hW, hH⟩ := hc
    unfold Lienzo.crop_area
    rw [if_neg (by push_neg; exact ⟨hW, hH⟩)]
    unfold Lienzo.paste_area Img.toPasteBuf
    rw [if_neg (by
      simp only [NpShape.size, Nat.mul_eq_zero]
      omega)]
    rw [if_neg (by
      push_neg
      refine ⟨by omega, by omega, rfl⟩)]
    dsimp only
    refine lienzoExt rfl rfl ?_
    refine imgExt rfl rfl ?_
    funext i j
    dsimp only
    by_cases hin : (max 0 r.y).toNat ≤ i ∧ i < (max 0 r.y).toNat + (targetH L r).toNat ∧
        (max 0 r.x).toNat ≤ j ∧ j < (max 0 r.x).toNat + (targetW L r).toNat
    · rw [if_pos hin]
      have h1 : i - (max 0 r.y).toNat + (max 0 r.y).toNat = i := by omega
      have h2 : j - (max 0 r.x).toNat + (max 0 r.x).toNat = j := by omega
      norm_num
      rw [u8_coe, u8_coe, u8_coe, h1, h2]
    · rw [if_neg hin]

/-- Every iteration of the stamp loop leaves the working buffer
untouched: either `get_scaled_rotated_brush_shape` raises, or one of the
skip guards fires — in particular the slice-shape guard of line 506
always fires, because the 3-D canvas slice never equals the 2-D
brush-mask slice. -/
theorem applyInkPointStep_id (cv : CvOps) (resolve : String → Option Mask)
    (brush_size brush_radius : ℤ) (density feibai : ℚ) (btype : String)
    (angle : ℚ) (noiseShape : NpShape) (noiseVal : ℕ → ℕ → ℚ) (aw ah : ℕ)
    (p1x p1y dx dy : ℤ) (num : ℕ) (b : Img) (i : ℕ) :
    applyInkPointStep cv resolve brush_size brush_radius density feibai btype angle
        noiseShape noiseVal aw ah p1x p1y dx dy num b i = .ok b ∨
    applyInkPointStep cv resolve brush_size brush_radius density feibai btype angle
        noiseShape noiseVal aw ah p1x p1y dx dy num b i = .error b := by
  unfold applyInkPointStep
  cases hm : get_scaled_rotated_brush_shape cv resolve btype brush_size angle with
  | error u => right; rfl
  | ok mask =>
    left
    dsimp only
    split_ifs with h1 h2 h3
    · rfl
    · rfl
    · rfl
    · exfalso
      push_neg at h3
      exact absurd h3.1 (by simp)

/-- Folding a buffer-preserving step over any index list preserves the
buffer, whether or not an exception escapes. -/
theorem foldlM_id (f : Img → ℕ → Except Img Img)
    (hf : ∀ b i, f b i = .ok b ∨ f b i = .error b) :
    ∀ (l : List ℕ) (b : Img), l.foldlM f b = .ok b ∨ l.foldlM f b = .error b := by
  intro l
  induction l with
  | nil => intro b; left; rfl
  | cons x xs ih =>
    intro b
    rcases hf b x with h | h
    · have hstep : (x :: xs).foldlM f b = xs.foldlM f b := by
        rw [List.foldlM_cons, h]
        rfl
      rw [hstep]
      exact ih b
    · right
      rw [List.foldlM_cons, h]
      rfl

/-- `_apply_ink_to_local_area` never modifies the local buffer: every
per-point blend is skipped (the brush-mask slice is 2-D, the uint8 slice
is 3-D), so the helper returns the buffer it was given — normally, or
carried by an escaping exception. -/
theorem applyInkToLocalArea_id (cv : CvOps) (resolve : String → Option Mask)
    (localArea : Img) (p1l p2l : ℤ × ℤ) (params : BrushParams) (noise : FArr) :
    applyInkToLocalArea cv resolve localArea p1l p2l params noise = .ok localArea ∨
    applyInkToLocalArea cv resolve localArea p1l p2l params noise = .error localArea := by
  unfold applyInkToLocalArea
  by_cases h1 : localArea.h * localArea.w * 3 = 0
  · rw [if_pos h1]
    left
    rfl
  rw [if_neg h1]
  by_cases h2 : localArea.w = 0 ∨ localArea.h = 0
  · rw [if_pos h2]
    left
    rfl
  rw [if_neg h2]
  dsimp only
  exact foldlM_id _ (fun b i => applyInkPointStep_id _ _ _ _ _ _ _ _ _ _ _ _ _ _ _ _ _ b i) _ localArea

/-- `apply_basic_brush_stroke_segment` is a no-op on every input: it
returns the empty rectangle and the canvas unchanged.  The pre-paste
guard of line 630 compares the `(h, w, 3)` buffer shape with the
`(height, width)` pair and never passes; on the exception path the
unmodified crop is pasted back, which restores the canvas bit-for-bit. -/
theorem seg_noop (cv : CvOps) (resolve : String → Option Mask)
    (noiseVal : ℕ → ℕ → ℚ) (L : Lienzo) (p1 p2 : ℤ × ℤ) (params : BrushParams) :
    apply_basic_brush_stroke_segment cv resolve noiseVal L p1 p2 params =
      (QRect.empty, L) := by
  unfold apply_basic_brush_stroke_segment
  by_cases h1 : L.width ≤ 0 ∨ L.height ≤ 0
  · rw [if_pos h1]
  rw [if_neg h1]
  dsimp only
  set R := segProcessRect L p1 p2 ((1 ⊔ params.size.getD 15).fdiv 2) with hR
  by_cases h2 : R.w ≤ 0 ∨ R.h ≤ 0
  · rw [if_pos h2]
  rw [if_neg h2]
  set C := L.crop_area R with hC
  by_cases h3 : C.h * C.w * 3 = 0
  · rw [if_pos h3]
  rw [if_neg h3]
  rcases applyInkToLocalArea_id cv resolve C (p1.1 - R.x, p1.2 - R.y) (p2.1 - R.x, p2.2 - R.y)
      params ⟨NpShape.d2 C.h C.w, noiseVal⟩ with h | h
  · rw [h]
    dsimp only
    rw [if_neg (by simp)]
  · rw [h]
    dsimp only
    rw [crop_paste_id]

/-- `apply_localized_blur` is a no-op on every input: the pre-paste guard
of line 768 compares the `(h, w, 3)` blended-buffer shape with the
`(h, w)` pair and never passes, so every path returns the empty rectangle
and the canvas unchanged. -/
theorem blur_noop (cv : CvOps) (L : Lienzo) (r : QRect) (wetness brush_size : ℤ) :
    apply_localized_blur cv L r wetness brush_size = (QRect.empty, L) := by
  unfold apply_localized_blur
  dsimp only
  split_ifs with h1 h2 h3 h4 h5
  · rfl
  · rfl
  · rfl
  · rfl
  · exfalso
    simp at h5
  · rfl

/-- Every path of `set_canvas_data` either leaves the canvas untouched or
replaces the buffer with one materialised at exactly
`height.toNat × width.toNat × 3` (the final guard of lienzo.py line 99). -/
theorem set_canvas_data_cases (ops : CvImgOps) (L : Lienzo) (d0 : NpArr) :
    L.set_canvas_data ops d0 = L ∨
    ∃ d', L.set_canvas_data ops d0 =
      { L with data := imgOfArr L.height.toNat L.width.toNat d' } := by
  unfold Lienzo.set_canvas_data
  dsimp only
  repeat' split
  all_goals first
    | exact Or.inl rfl
    | exact Or.inr ⟨_, rfl⟩

/-- Every path of `paste_area` either leaves the canvas untouched or
rewrites pixel values in place, keeping the buffer dimensions. -/
theorem paste_area_cases (L : Lienzo) (r : QRect) (d : NpArr) :
    L.paste_area r d = L ∨
    ∃ f, L.paste_area r d = { L with data := ⟨L.data.h, L.data.w, f⟩ } := by
  unfold Lienzo.paste_area
  dsimp only
  repeat' split
  all_goals first
    | exact Or.inl rfl
    | exact Or.inr ⟨_, rfl⟩

/-! ## Claim theorems -/

/-- C1: evaluation at the failing input of the tap claim.  On the 100×100
all-white canvas, the tap at (50,50) with size 10, density 100, flow 100,
hardness 50, black ink (the spec scenario) is processed by
`apply_basic_brush_stroke_segment` into an **empty** rectangle with the
canvas unchanged: pixel (50,50) stays 255 in every channel instead of
becoming strictly darker (pixel (0,0) stays 255 as the claim says). -/
theorem claim_C1_tap_deposits_nothing :
    apply_basic_brush_stroke_segment cvTriv resolveSynth noiseHalf scenarioCanvas
        (50, 50) (50, 50) scenarioParams = (QRect.empty, scenarioCanvas) ∧
    ((apply_basic_brush_stroke_segment cvTriv resolveSynth noiseHalf scenarioCanvas
        (50, 50) (50, 50) scenarioParams).2).data.pix 50 50 = whitePix ∧
    ((apply_basic_brush_stroke_segment cvTriv resolveSynth noiseHalf scenarioCanvas
        (50, 50) (50, 50) scenarioParams).2).data.pix 0 0 = whitePix := by
  refine ⟨seg_noop _ _ _ _ _ _ _, ?_, ?_⟩ <;> rw [seg_noop] <;> decide

/-- C2: for every canvas, every pair of segment endpoints, every brush
dictionary (and every behaviour of the external OpenCV routines and of
the noise draw), `apply_basic_brush_stroke_segment` returns an empty
rectangle and leaves every canvas pixel unchanged — the pre-paste guard
compares `(h, w, 3)` with `(height, width)` and never passes, and inside
the helper every per-point blend is skipped by the slice-shape check. -/
theorem claim_C2_segment_always_empty_noop :
    ∀ (cv : CvOps) (resolve : String → Option Mask) (noiseVal : ℕ → ℕ → ℚ)
      (L : Lienzo) (p1 p2 : ℤ × ℤ) (params : BrushParams),
      (apply_basic_brush_stroke_segment cv resolve noiseVal L p1 p2 params).1 =
        QRect.empty ∧
      (apply_basic_brush_stroke_segment cv resolve noiseVal L p1 p2 params).2 = L := by
  intro cv resolve noiseVal L p1 p2 params
  rw [seg_noop]
  exact ⟨rfl, rfl⟩

/-- C3: ink application and finalization never lighten a pixel: after
`_apply_ink_to_local_area` every pixel of the working buffer is ≤ its old
value componentwise, and after `apply_localized_blur` every canvas pixel
is ≤ its pre-finalize value componentwise (both blends are componentwise
minima; in fact neither ever changes a pixel, see the no-op lemmas). -/
theorem claim_C3_never_lightens :
    (∀ (cv : CvOps) (resolve : String → Option Mask) (localArea : Img)
        (p1l p2l : ℤ × ℤ) (params : BrushParams) (noise : FArr) (i j : ℕ),
      pixLe ((inkResultImg (applyInkToLocalArea cv resolve localArea p1l p2l params noise)).pix i j)
        (localArea.pix i j)) ∧
    (∀ (cv : CvOps) (L : Lienzo) (r : QRect) (wetness brush_size : ℤ) (i j : ℕ),
      pixLe (((apply_localized_blur cv L r wetness brush_size).2).data.pix i j)
        (L.data.pix i j)) := by
  constructor
  · intro cv resolve localArea p1l p2l params noise i j
    rcases applyInkToLocalArea_id cv resolve localArea p1l p2l params noise with h | h <;>
      rw [h] <;> exact pixLe_refl _
  · intro cv L r wetness brush_size i j
    rw [blur_noop]
    exact pixLe_refl _

/-- C4: round-trip identity of region access: for every rectangle,
including rectangles partly or wholly outside the canvas, `crop_area`
followed immediately by `paste_area` with the result leaves the canvas
buffer bit-identical to its state before the crop. -/
theorem claim_C4_crop_then_paste_identity :
    ∀ (L : Lienzo) (r : QRect),
      L.paste_area r ((L.crop_area r).toPasteBuf) = L :=
  fun L r => crop_paste_id L r

/-- C5: evaluation at the failing input of the mask-shape claim.  When the
target size equals the base mask's side (128 for the synthetic fallback
round mask), `get_scaled_rotated_brush_shape` raises `UnboundLocalError`
(`resized_shape_opacity` is referenced on a path where it was never
assigned), modelled as `.error ()` — it does not return a 128×128 mask;
at other sizes it does return the requested `N×N` square. -/
theorem claim_C5_mask_lookup_raises_at_base_size :
    get_scaled_rotated_brush_shape cvTriv resolveSynth "round" 128 0 = .error () ∧
    get_scaled_rotated_brush_shape cvTriv resolveSynth "round" 128 45 = .error () ∧
    (∃ m, get_scaled_rotated_brush_shape cvTriv resolveSynth "round" 10 0 = .ok m ∧
      m.h = 10 ∧ m.w = 10) ∧
    (∃ m, get_scaled_rotated_brush_shape cvTriv resolveSynth "round" 10 45 = .ok m ∧
      m.h = 10 ∧ m.w = 10) :=
  ⟨rfl, rfl, ⟨_, rfl, rfl, rfl⟩, ⟨_, rfl, rfl, rfl⟩⟩

/-- C6: finalization with non-positive wetness is a complete no-op: for
every canvas and every accumulated stroke rectangle, `finalize_stroke`
with a dictionary carrying `wetness ≤ 0` returns an empty rectangle and
leaves every canvas pixel unchanged. -/
theorem claim_C6_finalize_zero_wetness_noop :
    ∀ (cv : CvOps) (L : Lienzo) (r : QRect) (params : BrushParams) (w : ℤ),
      params.wetness = some w → w ≤ 0 →
      finalize_stroke cv L r params = (QRect.empty, L) := by
  intro cv L r params w hw hle
  unfold finalize_stroke
  exact blur_noop _ _ _ _ _

/-- Witness for C6 at wetness 0 on the scenario canvas. -/
theorem claim_C6_finalize_zero_wetness_noop_witness :
    paramsW0.wetness = some 0 ∧ (0 : ℤ) ≤ 0 ∧
    finalize_stroke cvTriv scenarioCanvas ⟨10, 10, 5, 5⟩ paramsW0 =
      (QRect.empty, scenarioCanvas) :=
  ⟨rfl, le_refl 0,
    claim_C6_finalize_zero_wetness_noop cvTriv scenarioCanvas ⟨10, 10, 5, 5⟩ paramsW0 0
      rfl (le_refl 0)⟩

/-- C7 counterexample: with density 100, feibai 0, and flow 50 in the
dictionary, mask value 1 and noise 0, the opacity the code computes is 1
while the spec's formula `(density/100)·(flow/100)·mask·feibaiModifier`
gives 1/2 — the claim's equality fails at this concrete input because the
`flow` setting is never read by the stamp compositor. -/
theorem claim_C7_flow_counterexample :
    stampOpacityOfParams cexParams 1 0 = 1 ∧
    specStampOpacity (cexParams.density.getD 60) (cexParams.flow.getD 100)
        (cexParams.feibai.getD 20) 1 0 = 1 / 2 ∧
    stampOpacityOfParams cexParams 1 0 ≠
      specStampOpacity (cexParams.density.getD 60) (cexParams.flow.getD 100)
        (cexParams.feibai.getD 20) 1 0 := by
  refine ⟨?_, ?_, ?_⟩ <;>
    norm_num [stampOpacityOfParams, effectivePixelOpacity, feibaiModifier, clip0100,
      specStampOpacity, cexParams]

/-- C7 amended: the per-stamp effective opacity equals
`(clip(density)/100) · mask · feibaiModifier` with
`feibaiModifier = 1 − (feibai/100)·(1 − noise)`; the `flow` setting does
not enter, and no explicit clamp is applied — the value lies in `[0,1]`
whenever the mask and noise values do. -/
theorem claim_C7_opacity_formula_amended :
    ∀ (p : BrushParams) (m n : ℚ), 0 ≤ m → m ≤ 1 → 0 ≤ n → n ≤ 1 →
      stampOpacityOfParams p m n =
        clip0100 (p.density.getD 60) / 100 * m *
          feibaiModifier (clip0100 (p.feibai.getD 20)) n ∧
      0 ≤ stampOpacityOfParams p m n ∧ stampOpacityOfParams p m n ≤ 1 := by
  intro p m n hm0 hm1 hn0 hn1
  have hd0 : (0 : ℚ) ≤ clip0100 (p.density.getD 60) :=
    le_min (le_max_right _ _) (by norm_num)
  have hd1 : clip0100 (p.density.getD 60) ≤ 100 := min_le_right _ _
  have hf0 : (0 : ℚ) ≤ clip0100 (p.feibai.getD 20) :=
    le_min (le_max_right _ _) (by norm_num)
  have hf1 : clip0100 (p.feibai.getD 20) ≤ 100 := min_le_right _ _
  have hmod0 : 0 ≤ feibaiModifier (clip0100 (p.feibai.getD 20)) n := by
    unfold feibaiModifier
    nlinarith
  have hmod1 : feibaiModifier (clip0100 (p.feibai.getD 20)) n ≤ 1 := by
    unfold feibaiModifier
    nlinarith
  refine ⟨rfl, ?_, ?_⟩
  · unfold stampOpacityOfParams effectivePixelOpacity
    have : (0 : ℚ) ≤ clip0100 (p.density.getD 60) / 100 := by positivity
    exact mul_nonneg (mul_nonneg this hm0) hmod0
  · unfold stampOpacityOfParams effectivePixelOpacity
    have hdiv : clip0100 (p.density.getD 60) / 100 ≤ 1 := by
      rw [div_le_one (by norm_num : (0 : ℚ) < 100)]
      exact hd1
    have hdiv0 : (0 : ℚ) ≤ clip0100 (p.density.getD 60) / 100 := by positivity
    have hab : clip0100 (p.density.getD 60) / 100 * m ≤ 1 := mul_le_one₀ hdiv hm0 hm1
    exact mul_le_one₀ hab hmod0 hmod1

/-- Witness for the amended C7 formula at a concrete dictionary, mask
value 1/2 and noise 1/3. -/
theorem claim_C7_opacity_formula_amended_witness :
    0 ≤ stampOpacityOfParams cexParams (1 / 2) (1 / 3) ∧
    stampOpacityOfParams cexParams (1 / 2) (1 / 3) ≤ 1 :=
  ⟨(claim_C7_opacity_formula_amended cexParams (1 / 2) (1 / 3) (by norm_num) (by norm_num)
      (by norm_num) (by norm_num)).2.1,
   (claim_C7_opacity_formula_amended cexParams (1 / 2) (1 / 3) (by norm_num) (by norm_num)
      (by norm_num) (by norm_num)).2.2⟩

/-- C8: `crop_area` is total (the model is a function; clipping absorbs
out-of-range input) and returns exactly the clipped intersection: its
dimensions are `(targetH, targetW)` when that intersection is non-empty
and `(0, 0)` otherwise; in particular a rectangle extending past the
canvas on all four sides yields the full canvas dimensions, not the
requested size. -/
theorem claim_C8_crop_returns_clipped_intersection :
    ∀ (L : Lienzo) (r : QRect),
      (((L.crop_area r).h, (L.crop_area r).w) =
        if 0 < targetH L r ∧ 0 < targetW L r then
          ((targetH L r).toNat, (targetW L r).toNat)
        else (0, 0)) ∧
      (r.x ≤ 0 → r.y ≤ 0 → L.width ≤ r.x + r.w → L.height ≤ r.y + r.h →
        0 < L.width → 0 < L.height →
        (L.crop_area r).h = L.height.toNat ∧ (L.crop_area r).w = L.width.toNat) := by
  intro L r
  constructor
  · unfold Lienzo.crop_area
    by_cases hc : targetW L r ≤ 0 ∨ targetH L r ≤ 0
    · rw [if_pos hc, if_neg (by omega)]
      rfl
    · rw [if_neg hc, if_pos (by omega)]
  · intro hx hy hw hh hW hH
    have h1 : targetH L r = L.height := by
      unfold targetH
      omega
    have h2 : targetW L r = L.width := by
      unfold targetW
      omega
    unfold Lienzo.crop_area
    rw [if_neg (by omega)]
    rw [h1, h2]
    exact ⟨rfl, rfl⟩

/-- Witness for C8: the 7×5 canvas cropped with a rectangle overrunning
all four sides yields buffer dimensions 5×7 (the clipped intersection),
not 30×20. -/
theorem claim_C8_crop_returns_clipped_intersection_witness :
    (c8Rect.x ≤ 0 ∧ c8Rect.y ≤ 0 ∧ c8Canvas.width ≤ c8Rect.x + c8Rect.w ∧
      c8Canvas.height ≤ c8Rect.y + c8Rect.h ∧ 0 < c8Canvas.width ∧ 0 < c8Canvas.height) ∧
    (c8Canvas.crop_area c8Rect).h = c8Canvas.height.toNat ∧
    (c8Canvas.crop_area c8Rect).w = c8Canvas.width.toNat :=
  ⟨by decide,
    (claim_C8_crop_returns_clipped_intersection c8Canvas c8Rect).2 (by decide) (by decide)
      (by decide) (by decide) (by decide) (by decide)⟩

/-- C9: `paste_area` is atomic on shape mismatch — whenever the buffer's
shape differs from the 3-tuple `(targetH, targetW, 3)` of the clipped
rectangle the whole canvas is returned unchanged (no partial write) — and
when the shape matches but the dtype is not uint8, every written sample is
the value clipped to `[0,255]`. -/
theorem claim_C9_paste_atomic_and_normalizing :
    ∀ (L : Lienzo) (r : QRect) (d : NpArr),
      (d.shape ≠ NpShape.d3 (targetH L r).toNat (targetW L r).toNat 3 →
        L.paste_area r d = L) ∧
      (d.shape = NpShape.d3 (targetH L r).toNat (targetW L r).toNat 3 →
        0 < targetH L r → 0 < targetW L r → d.isUint8 = false →
        ∀ i j, i < (targetH L r).toNat → j < (targetW L r).toNat →
          (L.paste_area r d).data.pix ((max 0 r.y).toNat + i) ((max 0 r.x).toNat + j) =
            (clip255 (d.val i j 0), clip255 (d.val i j 1), clip255 (d.val i j 2))) := by
  intro L r d
  constructor
  · intro hsh
    unfold Lienzo.paste_area
    by_cases h0 : d.shape.size = 0
    · rw [if_pos h0]
    rw [if_neg h0]
    dsimp only
    rw [if_pos (Or.inr (Or.inr hsh))]
  · intro hsh hth htw hu8 i j hi hj
    unfold Lienzo.paste_area
    rw [if_neg (by
      rw [hsh]
      simp only [NpShape.size, Nat.mul_eq_zero]
      omega)]
    dsimp only
    rw [if_neg (by
      push_neg
      exact ⟨by omega, by omega, hsh⟩)]
    dsimp only
    rw [if_pos (by omega)]
    rw [if_neg (by simp [hu8])]
    have hI : (max 0 r.y).toNat + i - (max 0 r.y).toNat = i := by omega
    have hJ : (max 0 r.x).toNat + j - (max 0 r.x).toNat = j := by omega
    rw [hI, hJ]

/-- Witness for C9: a 2-D buffer is rejected atomically, and a float
buffer with value 999 is written clipped. -/
theorem claim_C9_paste_atomic_and_normalizing_witness :
    c9Canvas.paste_area c9Rect c9ArrWrong = c9Canvas ∧
    (c9Canvas.paste_area c9Rect c9ArrFloat).data.pix ((max 0 c9Rect.y).toNat + 0)
        ((max 0 c9Rect.x).toNat + 1) =
      (clip255 999, clip255 999, clip255 999) :=
  ⟨(claim_C9_paste_atomic_and_normalizing c9Canvas c9Rect c9ArrWrong).1 (by decide),
   (claim_C9_paste_atomic_and_normalizing c9Canvas c9Rect c9ArrFloat).2 (by decide)
      (by decide) (by decide) rfl 0 1 (by decide) (by decide)⟩

/-- C10: the canvas buffer shape is invariant: construction yields a
positive-size canvas whose buffer is exactly `height × width × 3` (uint8
by the sample type), and `set_canvas_data` with arbitrary input imagery,
`paste_area`, and `fill` all preserve the canvas dimensions and the
buffer-shape invariant — no operation partially resizes the buffer. -/
theorem claim_C10_buffer_shape_invariant :
    (∀ (w h : ℤ) (c : ℤ × ℤ × ℤ),
      (Lienzo.init w h c).shapeOK ∧ 0 < (Lienzo.init w h c).width ∧
        0 < (Lienzo.init w h c).height) ∧
    (∀ (ops : CvImgOps) (L : Lienzo) (d : NpArr),
      (L.set_canvas_data ops d).width = L.width ∧
      (L.set_canvas_data ops d).height = L.height ∧
      (L.shapeOK → (L.set_canvas_data ops d).shapeOK)) ∧
    (∀ (L : Lienzo) (r : QRect) (d : NpArr),
      (L.paste_area r d).width = L.width ∧
      (L.paste_area r d).height = L.height ∧
      (L.shapeOK → (L.paste_area r d).shapeOK)) ∧
    (∀ (L : Lienzo) (c : ℤ × ℤ × ℤ),
      (L.fill c).width = L.width ∧ (L.fill c).height = L.height ∧
      (L.shapeOK → (L.fill c).shapeOK)) := by
  refine ⟨?_, ?_, ?_, ?_⟩
  · intro w h c
    unfold Lienzo.init Lienzo.shapeOK
    dsimp only
    split_ifs with hc
    · exact ⟨⟨rfl, rfl⟩, by norm_num, by norm_num⟩
    · exact ⟨⟨rfl, rfl⟩, by omega, by omega⟩
  · intro ops L d
    rcases set_canvas_data_cases ops L d with hE | ⟨d', hE⟩ <;> rw [hE]
    · exact ⟨rfl, rfl, fun hs => hs⟩
    · exact ⟨rfl, rfl, fun _ => ⟨rfl, rfl⟩⟩
  · intro L r d
    rcases paste_area_cases L r d with hE | ⟨f, hE⟩ <;> rw [hE]
    · exact ⟨rfl, rfl, fun hs => hs⟩
    · exact ⟨rfl, rfl, fun hs => ⟨hs.1, hs.2⟩⟩
  · intro L c
    unfold Lienzo.fill
    exact ⟨rfl, rfl, fun hs => ⟨hs.1, hs.2⟩⟩

/-- Witness for C10 on concrete canvases and inputs. -/
theorem claim_C10_buffer_shape_invariant_witness :
    (Lienzo.init 3 2 (0, 0, 0)).shapeOK ∧
    ((Lienzo.init 3 2 (0, 0, 0)).fill (300, -5, 9)).shapeOK ∧
    ((Lienzo.init 3 2 (0, 0, 0)).paste_area ⟨0, 0, 1, 1⟩ c9ArrFloat).shapeOK ∧
    ((Lienzo.init 3 2 (0, 0, 0)).set_canvas_data cvImgTriv c10Arr).shapeOK :=
  ⟨(claim_C10_buffer_shape_invariant.1 3 2 (0, 0, 0)).1,
   (claim_C10_buffer_shape_invariant.2.2.2 (Lienzo.init 3 2 (0, 0, 0)) (300, -5, 9)).2.2
     ((claim_C10_buffer_shape_invariant.1 3 2 (0, 0, 0)).1),
   (claim_C10_buffer_shape_invariant.2.2.1 (Lienzo.init 3 2 (0, 0, 0)) ⟨0, 0, 1, 1⟩
       c9ArrFloat).2.2 ((claim_C10_buffer_shape_invariant.1 3 2 (0, 0, 0)).1),
   (claim_C10_buffer_shape_invariant.2.1 cvImgTriv (Lienzo.init 3 2 (0, 0, 0)) c10Arr).2.2
     ((claim_C10_buffer_shape_invariant.1 3 2 (0, 0, 0)).1)⟩

end InkStudio
